import Mathlib

/-!
Shallow embedding of the Swarm Wrapped analytics engine (src/analyze.py).

Conventions of the embedding:
* Python ints are Int, floats are idealized as rationals.
* A dict field that the source reads with a default is modelled as an Option
  carrying getD at each access site, with the same default the source uses at
  that site.
* A raised Python exception is modelled as Except.error carrying the
  exception name; a normal return is Except.ok.
* Counter and dict tallies are insertion-ordered association lists, so that
  the most-common ranking and the tie-breaking of Python max are preserved.
* Local calendar dates are modelled by their day index (local seconds
  floor-divided by 86400); the source formats them as zero-padded strings
  whose lexicographic order agrees with the numeric order used here.
-/

namespace SwarmWrapped

/-- ASCII case folding, modelling str.lower as used for keyword matching. -/
def lowerStr (s : String) : String := ⟨s.data.map Char.toLower⟩

/-- Python substring containment: strContains hay needle decides needle in hay. -/
def strContains (hay needle : String) : Bool :=
  (List.range (hay.data.length + 1)).any fun i => needle.data.isPrefixOf (hay.data.drop i)

def isSpaceChar (c : Char) : Bool := c == ' ' || c == '\t' || c == '\n' || c == '\r'

/-- Python str.strip. -/
def pyStrip (s : String) : String :=
  ⟨((s.data.dropWhile isSpaceChar).reverse.dropWhile isSpaceChar).reverse⟩

/-- Round to the nearest integer with ties to even, the rounding Python round
uses, with floats idealized as rationals. -/
def roundHalfEven (q : ℚ) : ℤ :=
  let f := Rat.floor q
  let r := q - (f : ℚ)
  if r < 1 / 2 then f else if 1 / 2 < r then f + 1 else if f % 2 = 0 then f else f + 1

/-- Python round(x, 1). -/
def pyRound1 (q : ℚ) : ℚ := (roundHalfEven (q * 10) : ℚ) / 10

/-- Python round(x, 4), used for map point keys. -/
def pyRound4 (q : ℚ) : ℚ := (roundHalfEven (q * 10000) : ℚ) / 10000

/-- Python division: raises ZeroDivisionError on a zero denominator. -/
def pyDiv (a b : ℚ) : Except String ℚ :=
  if b = 0 then Except.error "ZeroDivisionError" else Except.ok (a / b)

/-- One entry of a venue category list; name is absent when the dict has no
name key. -/
structure Category where
  name : Option String
deriving DecidableEq

structure Location where
  city : Option String
  state : Option String
  country : Option String
  lat : Option ℚ
  lng : Option ℚ
deriving DecidableEq

structure Venue where
  id : Option String
  name : Option String
  categories : List Category
  location : Option Location
deriving DecidableEq

structure Friend where
  firstName : String
  lastName : String
deriving DecidableEq

/-- One check-in record as consumed by the engine; photos holds one marker per
entry of photos.items, since only the length is read. -/
structure Checkin where
  venue : Option Venue
  createdAt : Int
  timeZoneOffset : Int
  with_ : List Friend
  shout : Option String
  photos : List Unit
deriving DecidableEq

def emptyLocation : Location := ⟨none, none, none, none, none⟩

def emptyVenue : Venue := ⟨none, none, [], none⟩

/-- checkin.get of the venue key with default empty dict. -/
def venueOf (c : Checkin) : Venue := c.venue.getD emptyVenue

/-- Truthiness of checkin.get of the shout key: present and non-empty. -/
def truthyOptStr : Option String → Bool
  | none => false
  | some s => s != ""

/-- Truthiness of a coordinate read: present and nonzero. -/
def coordTruthy : Option ℚ → Bool
  | none => false
  | some x => x != 0

def SENSITIVE_CATEGORIES : List String :=
  ["church", "cathedral", "mosque", "synagogue", "temple", "chapel",
   "spiritual center", "religious", "school", "elementary", "middle school",
   "high school", "preschool", "daycare", "nursery", "kindergarten"]

/-- Lines 126-139: a record is dropped by the privacy filter when a category
name or the venue name contains a sensitive term, case-insensitively. -/
def isSensitive (checkin : Checkin) : Bool :=
  let venue := venueOf checkin
  let venue_name := lowerStr (venue.name.getD "")
  let category_names := venue.categories.map fun cat => lowerStr (cat.name.getD "")
  (category_names.any fun cat_name => SENSITIVE_CATEGORIES.any fun s => strContains cat_name s)
    || (SENSITIVE_CATEGORIES.any fun s => strContains venue_name s)

/-- Lines 123-144: the records kept when exclude_sensitive is set. -/
def privacyFilter (checkins : List Checkin) : List Checkin :=
  checkins.filter fun c => !isSensitive c

/-- Counter increment on an insertion-ordered tally. -/
def bump {α : Type} [BEq α] : List (α × Nat) → α → List (α × Nat)
  | [], k => [(k, 1)]
  | (k0, c) :: t, k => if k0 == k then (k0, c + 1) :: t else (k0, c) :: bump t k

/-- Counter read with default 0. -/
def tget {α : Type} [BEq α] (t : List (α × Nat)) (k : α) : Nat :=
  (List.lookup k t).getD 0

/-- Insertion into the distinct-dates set, keeping first-seen order. -/
def addDate (dates : List Int) (d : Int) : List Int :=
  if dates.contains d then dates else dates ++ [d]

/-- defaultdict-of-list append for the map point clusters. -/
def appendPoint (mp : List ((ℚ × ℚ) × List String)) (key : ℚ × ℚ) (entry : String) :
    List ((ℚ × ℚ) × List String) :=
  match mp with
  | [] => [(key, [entry])]
  | (k0, es) :: t =>
    if k0 == key then (k0, es ++ [entry]) :: t else (k0, es) :: appendPoint t key entry

def insertDesc {α : Type} (x : α × Nat) : List (α × Nat) → List (α × Nat)
  | [] => [x]
  | y :: t => if x.2 > y.2 then x :: y :: t else y :: insertDesc x t

/-- Counter.most_common: count-descending, stable on ties (first-seen order),
implemented as a stable insertion sort. -/
def most_common {α : Type} (t : List (α × Nat)) : List (α × Nat) :=
  t.foldl (fun acc x => insertDesc x acc) []

def insertAsc (x : Int) : List Int → List Int
  | [] => [x]
  | y :: t => if x ≤ y then x :: y :: t else y :: insertAsc x t

/-- sorted() over the distinct-dates set. -/
def sortInts (l : List Int) : List Int := l.foldr insertAsc []

/-- Python max with a key function over key-value pairs: the first maximal
element in iteration order wins ties. -/
def firstMax {α β : Type} [LinearOrder β] : α × β → List (α × β) → α × β
  | x, [] => x
  | x, y :: t => if y.2 > x.2 then firstMax y t else firstMax x t

/-- The frozen first-seen attributes stored in the venue registry
(lines 192-200). -/
structure VenueInfo where
  name : String
  category : String
  city : String
  state : String
  country : String
  lat : Option ℚ
  lng : Option ℚ
deriving DecidableEq

def defaultVenueInfo : VenueInfo := ⟨"", "", "", "", "", none, none⟩

/-- Venue registration, lines 188-200. Indexing the first category dict for
its name raises KeyError when the name key is absent. -/
def deriveVenueInfo (venue : Venue) (venue_name : String) : Except String VenueInfo :=
  let location := venue.location.getD emptyLocation
  match venue.categories with
  | [] =>
    Except.ok ⟨venue_name, "Other", location.city.getD "Unknown", location.state.getD "",
      location.country.getD "Unknown", location.lat, location.lng⟩
  | cat :: _ =>
    match cat.name with
    | none => Except.error "KeyError"
    | some primary_category =>
      Except.ok ⟨venue_name, primary_category, location.city.getD "Unknown",
        location.state.getD "", location.country.getD "Unknown", location.lat, location.lng⟩

/-- City label disambiguation, lines 208-212. -/
def cityKeyOf (vi : VenueInfo) : String :=
  if vi.state != "" then vi.city ++ ", " ++ vi.state
  else if vi.country != "United States" then vi.city ++ ", " ++ vi.country
  else vi.city

/-- Guard of the map-point bucketing at line 248: both stored coordinates
truthy. -/
def map_point_guard (vi : VenueInfo) : Bool := coordTruthy vi.lat && coordTruthy vi.lng

/-- Seconds of the local naive datetime: UTC timestamp plus the per-record
offset in minutes (lines 219-223). -/
def localSeconds (c : Checkin) : Int := c.createdAt + 60 * c.timeZoneOffset

def hourOf (c : Checkin) : Int := Int.ediv (Int.emod (localSeconds c) 86400) 3600

/-- Local calendar day index (days since the epoch, floored). -/
def dayIndexOf (c : Checkin) : Int := Int.fdiv (localSeconds c) 86400

def DAY_NAMES : List String :=
  ["Monday", "Tuesday", "Wednesday", "Thursday", "Friday", "Saturday", "Sunday"]

/-- strftime of the weekday name: day 0 of the epoch is a Thursday. -/
def dayNameOf (c : Checkin) : String :=
  DAY_NAMES.getD (Int.emod (dayIndexOf c + 3) 7).toNat "Monday"

/-- The tallies and raw structures built by the aggregation sweep. -/
structure AggState where
  venues : List (String × VenueInfo)
  venue_counts : List (String × Nat)
  category_counts : List (String × Nat)
  city_counts : List (String × Nat)
  country_counts : List (String × Nat)
  hourly : List (Int × Nat)
  daily : List (String × Nat)
  checkin_dates : List Int
  checkins_per_day : List (Int × Nat)
  friend_counts : List (String × Nat)
  checkins_with_friends : Nat
  checkins_with_shouts : Nat
  total_photos : Nat
  map_points : List ((ℚ × ℚ) × List String)
deriving DecidableEq

def initAgg : AggState := ⟨[], [], [], [], [], [], [], [], [], [], 0, 0, 0, []⟩

def venueIdOf (c : Checkin) : String := (venueOf c).id.getD "unknown"

def venueNameOf (c : Checkin) : String := (venueOf c).name.getD "Unknown Venue"

/-- First-seen-wins registration (lines 187-200). -/
def registerVenue (venues : List (String × VenueInfo)) (venue : Venue)
    (venue_id venue_name : String) : Except String (List (String × VenueInfo)) :=
  match List.lookup venue_id venues with
  | some _ => Except.ok venues
  | none =>
    match deriveVenueInfo venue venue_name with
    | Except.error e => Except.error e
    | Except.ok info => Except.ok (venues ++ [(venue_id, info)])

/-- Friend display name: trimmed concatenation of first and last name
(line 238). -/
def friendNameOf (f : Friend) : String := pyStrip (f.firstName ++ " " ++ f.lastName)

def bumpFriends (fc : List (String × Nat)) (fs : List Friend) : List (String × Nat) :=
  fs.foldl (fun acc f => let n := friendNameOf f; if n != "" then bump acc n else acc) fc

/-- One iteration of the aggregation loop over the filtered records
(lines 178-251). -/
def aggStep (st : AggState) (checkin : Checkin) : Except String AggState :=
  let venue := venueOf checkin
  let venue_id := venueIdOf checkin
  let venue_name := venueNameOf checkin
  match registerVenue st.venues venue venue_id venue_name with
  | Except.error e => Except.error e
  | Except.ok venues =>
    let venue_info := (List.lookup venue_id venues).getD defaultVenueInfo
    let date := dayIndexOf checkin
    Except.ok
      { venues := venues
        venue_counts := bump st.venue_counts venue_name
        category_counts := bump st.category_counts venue_info.category
        city_counts := bump st.city_counts (cityKeyOf venue_info)
        country_counts := bump st.country_counts venue_info.country
        hourly := bump st.hourly (hourOf checkin)
        daily := bump st.daily (dayNameOf checkin)
        checkin_dates := addDate st.checkin_dates date
        checkins_per_day := bump st.checkins_per_day date
        friend_counts :=
          if !checkin.with_.isEmpty then bumpFriends st.friend_counts checkin.with_
          else st.friend_counts
        checkins_with_friends :=
          if !checkin.with_.isEmpty then st.checkins_with_friends + 1
          else st.checkins_with_friends
        checkins_with_shouts :=
          if truthyOptStr checkin.shout then st.checkins_with_shouts + 1
          else st.checkins_with_shouts
        total_photos := st.total_photos + checkin.photos.length
        map_points :=
          if map_point_guard venue_info then
            appendPoint st.map_points
              (pyRound4 (venue_info.lat.getD 0), pyRound4 (venue_info.lng.getD 0))
              (venue_name ++ "(1)")
          else st.map_points }

def aggFold (st : AggState) : List Checkin → Except String AggState
  | [] => Except.ok st
  | c :: rest =>
    match aggStep st c with
    | Except.error e => Except.error e
    | Except.ok st1 => aggFold st1 rest

/-- The whole aggregation sweep. -/
def aggregate (checkins : List Checkin) : Except String AggState :=
  aggFold initAgg checkins

def streakGo : Int → Nat → Nat → List Int → Nat
  | _, _, max_streak, [] => max_streak
  | prev, current_streak, max_streak, curr :: rest =>
    if curr - prev = 1 then
      streakGo curr (current_streak + 1) (max max_streak (current_streak + 1)) rest
    else
      streakGo curr 1 max_streak rest

/-- calculate_longest_streak, lines 722-740, over sorted distinct day
indices. -/
def calculate_longest_streak : List Int → Nat
  | [] => 0
  | d :: rest => streakGo d 1 1 rest

def gapGo : Int → Int × Option Int × Option Int → List Int → Int × Option Int × Option Int
  | _, acc, [] => acc
  | prev, acc, curr :: rest =>
    let gap := curr - prev - 1
    if gap > acc.1 then gapGo curr (gap, some prev, some curr) rest else gapGo curr acc rest

/-- The longest-gap scan of lines 478-488 over sorted distinct day indices:
running maximum gap with its bounding dates. -/
def longestGapScan : List Int → Int × Option Int × Option Int
  | [] => (0, none, none)
  | d :: rest => gapGo d (0, none, none) rest

/-- Home coordinate means, lines 432-433: the divisions are the raw Python
slash and raise ZeroDivisionError when no home venue has the coordinate. -/
def home_means (home_venues : List VenueInfo) : Except String (ℚ × ℚ) :=
  let latVenues := home_venues.filter fun v => coordTruthy v.lat
  let lngVenues := home_venues.filter fun v => coordTruthy v.lng
  match pyDiv ((latVenues.map fun v => v.lat.getD 0).sum) (latVenues.length : ℚ) with
  | Except.error e => Except.error e
  | Except.ok home_lat =>
    match pyDiv ((lngVenues.map fun v => v.lng.getD 0).sum) (lngVenues.length : ℚ) with
    | Except.error e => Except.error e
    | Except.ok home_lng => Except.ok (home_lat, home_lng)

/-- Python split on a comma, first piece. -/
def splitHeadComma (s : String) : String := (s.splitOn ",").headD s

/-- The venues actually scanned by the furthest-venue loop (guard at
line 439). The haversine maximization itself ranges over transcendental
float values and is not embedded; only its scan domain is. -/
def furthest_candidates (venues : List VenueInfo) : List VenueInfo :=
  venues.filter fun v => coordTruthy v.lat && coordTruthy v.lng

/-- Lines 429-433: home-city venue selection and the coordinate means,
returning the home coordinates when computed, none when the stage is
skipped, and an error when a mean divides by zero. -/
def homeCoordsStage (venues : List (String × VenueInfo)) (home_city : Option String) :
    Except String (Option (ℚ × ℚ)) :=
  match home_city with
  | none => Except.ok none
  | some hc =>
    let home_venues := (venues.map Prod.snd).filter fun v => v.city == splitHeadComma hc
    if home_venues.isEmpty then Except.ok none
    else
      match home_means home_venues with
      | Except.error e => Except.error e
      | Except.ok p => Except.ok (some p)

structure TimeOfDay where
  morning : Nat
  afternoon : Nat
  evening : Nat
  night : Nat
deriving DecidableEq

/-- time_of_day.get with default 0. -/
def todGet (t : TimeOfDay) (k : String) : Nat :=
  if k == "morning" then t.morning
  else if k == "afternoon" then t.afternoon
  else if k == "evening" then t.evening
  else if k == "night" then t.night
  else 0

/-- The single rule a personality archetype carries. -/
inductive Rule : Type
  | cats (keywords : List String) (min_percentage : ℚ)
  | countriesCities (countries : Nat) (cities : Nat)
  | friendShare (threshold : ℚ)
  | uniqueRatioRule (threshold : ℚ)
  | lowUniqueRatioRule (threshold : ℚ)
  | homeCityShare (threshold : ℚ)
  | timeRule (slot : String)
deriving DecidableEq

structure PType where
  name : String
  emoji : String
  description : String
  rule : Rule
deriving DecidableEq

/-- The fixed eleven-entry archetype catalogue, in source order
(lines 12-83). -/
def PERSONALITY_TYPES : List (String × PType) :=
  [("coffee_connoisseur", ⟨"The Coffee Connoisseur", "☕",
      "Your year was fueled by caffeine. Coffee shops were your go-to destination.",
      Rule.cats ["Coffee Shop", "Café", "Tea Room", "Bakery"] 0.15⟩),
   ("globe_trotter", ⟨"The Globe Trotter", "🌍",
      "You\x27re a true explorer. Multiple countries and countless cities on your map.",
      Rule.countriesCities 3 30⟩),
   ("foodie", ⟨"The Foodie", "🍽️",
      "Life\x27s too short for bad food. Restaurants dominated your check-ins.",
      Rule.cats ["Restaurant", "Food", "Diner", "Bistro", "Eatery"] 0.20⟩),
   ("night_owl", ⟨"The Night Owl", "🦉",
      "The night is young! Most of your adventures happened after dark.",
      Rule.timeRule "night"⟩),
   ("early_bird", ⟨"The Early Bird", "🌅",
      "Rise and shine! You make the most of mornings.",
      Rule.timeRule "morning"⟩),
   ("fitness_fanatic", ⟨"The Fitness Fanatic", "💪",
      "No excuses! Gyms and outdoor activities kept you moving.",
      Rule.cats ["Gym", "Fitness", "Yoga", "Park", "Trail", "Pool"] 0.15⟩),
   ("social_butterfly", ⟨"The Social Butterfly", "🦋",
      "Never alone! Most of your check-ins were with friends and family.",
      Rule.friendShare 60⟩),
   ("adventurer", ⟨"The Adventurer", "🧭",
      "Variety is the spice of life. You rarely visit the same place twice.",
      Rule.uniqueRatioRule 0.7⟩),
   ("the_regular", ⟨"The Regular", "🪑",
      "You\x27ve got your spots. The staff knows your order and your name.",
      Rule.lowUniqueRatioRule 0.35⟩),
   ("homebody", ⟨"The Homebody", "🏠",
      "Home is where the heart is. You know your neighborhood inside and out.",
      Rule.homeCityShare 80⟩),
   ("jet_setter", ⟨"The Jet Setter", "✈️",
      "Always on the move! Airports are practically your second home.",
      Rule.cats ["Airport", "Plane", "Terminal"] 0.10⟩)]

/-- The stats fields determine_personality reads from the stats mapping. -/
structure PStats where
  total_checkins : Nat
  unique_venues : Nat
  countries : List (String × Nat)
  unique_cities : Nat
  friend_percentage : ℚ
  time_of_day : TimeOfDay
deriving DecidableEq

/-- The classifier result: the archetype identifier when present, plus the
catalogue display fields. The empty-batch branch of the source returns the
raw catalogue entry, which carries no identifier. -/
structure Personality where
  type : Option String
  name : String
  emoji : String
  description : String
deriving DecidableEq

def adventurerDefault : Personality :=
  ⟨none, "The Adventurer", "🧭",
   "Variety is the spice of life. You rarely visit the same place twice."⟩

/-- The per-archetype score of lines 530-583. -/
def scoreType (stats : PStats) (category_counts city_counts : List (String × Nat))
    (unique_ratio : ℚ) (t : PType) : ℚ :=
  match t.rule with
  | Rule.cats keywords min_percentage =>
    let category_checkins :=
      ((category_counts.filter fun e =>
          keywords.any fun kw => strContains (lowerStr e.1) (lowerStr kw)).map Prod.snd).sum
    let pct : ℚ :=
      if stats.total_checkins ≠ 0 then (category_checkins : ℚ) / (stats.total_checkins : ℚ)
      else 0
    if pct ≥ min_percentage then pct else 0
  | Rule.countriesCities countries cities =>
    let score : ℚ := if stats.countries.length ≥ countries then 0.8 else 0
    if stats.unique_cities ≥ cities then max score 0.9 else score
  | Rule.friendShare threshold =>
    if stats.friend_percentage ≥ threshold then stats.friend_percentage / 100 else 0
  | Rule.uniqueRatioRule threshold =>
    if unique_ratio ≥ threshold then unique_ratio else 0
  | Rule.lowUniqueRatioRule threshold =>
    if unique_ratio ≤ threshold then 1 - unique_ratio else 0
  | Rule.homeCityShare threshold =>
    if !city_counts.isEmpty then
      let home_count := ((most_common city_counts).headD ("", 0)).2
      let home_pct : ℚ :=
        if stats.total_checkins ≠ 0 then (home_count : ℚ) / (stats.total_checkins : ℚ) * 100
        else 0
      if home_pct ≥ threshold then home_pct / 100 else 0
    else 0
  | Rule.timeRule slot =>
    let tod := stats.time_of_day
    let time_checkins := todGet tod slot
    let total_time := tod.morning + tod.afternoon + tod.evening + tod.night
    if total_time > 0 ∧ (time_checkins : ℚ) / (total_time : ℚ) > 0.35 then
      (time_checkins : ℚ) / (total_time : ℚ)
    else 0

/-- The catalogue-ordered score list the classifier maximizes over. -/
def personalityScores (stats : PStats) (category_counts city_counts : List (String × Nat)) :
    List (String × ℚ) :=
  let unique_ratio : ℚ :=
    if stats.total_checkins ≠ 0 then (stats.unique_venues : ℚ) / (stats.total_checkins : ℚ)
    else 0
  PERSONALITY_TYPES.map fun e => (e.1, scoreType stats category_counts city_counts unique_ratio e.2)

/-- determine_personality, lines 518-591. -/
def determine_personality (stats : PStats) (category_counts city_counts : List (String × Nat)) :
    Personality :=
  if stats.total_checkins = 0 then adventurerDefault
  else
    let scores := personalityScores stats category_counts city_counts
    let best_type :=
      match scores with
      | [] => "adventurer"
      | e :: rest => (firstMax e rest).1
    let info := (List.lookup best_type PERSONALITY_TYPES).getD
      ⟨adventurerDefault.name, adventurerDefault.emoji, adventurerDefault.description,
       Rule.uniqueRatioRule 0.7⟩
    ⟨some best_type, info.name, info.emoji, info.description⟩

/-- The stats mapping fields needed by the claims; conditionally present keys
are Option (none when the source does not set the key). Display-only keys of
the source (ranked top-N lists, month tallies, formatted date strings, the
narrative sentence, and the float-valued furthest-venue selection) are not
carried as fields; the failure behaviour of the first top_venues
construction is still modelled, by top_venues_stage inside analyzeBody.
Every carried field is computed exactly as in the source. -/
structure Stats where
  total_checkins : Nat
  unique_venues : Nat
  unique_categories : Nat
  unique_cities : Nat
  countries : List (String × Nat)
  hourly : List (Int × Nat)
  peak_hour : Int
  peak_hour_formatted : String
  days_active : Nat
  total_days : Int
  activity_percentage : ℚ
  avg_checkins_per_active_day : ℚ
  longest_streak : Nat
  checkins_with_friends : Nat
  friend_percentage : ℚ
  solo_checkins : Int
  solo_percentage : ℚ
  checkins_with_shouts : Nat
  shout_percentage : ℚ
  total_photos : Nat
  time_of_day : TimeOfDay
  time_personality : String
  weekend_percentage : ℚ
  weekday_percentage : ℚ
  map_points : List (ℚ × ℚ × String)
  one_time_venues : Nat
  one_time_percentage : ℚ
  home_city : Option String
  international_checkins : Int
  international_percentage : ℚ
  longest_gap : Option (Int × Option Int × Option Int)
  personality : Personality
deriving DecidableEq

/-- Peak hour, line 311: Python max over the hourly counter keys by count,
first key in insertion order winning ties; 0 when the counter is empty. -/
def peak_hour_of (hourly : List (Int × Nat)) : Int :=
  match hourly with
  | [] => 0
  | e :: rest => (firstMax e rest).1

/-- Peak hour rendering, line 312: the or-expression maps an exact-noon 0
back to 12. -/
def peak_hour_formatted_of (peak_hour : Int) : String :=
  if peak_hour < 12 then toString peak_hour ++ "am"
  else (if peak_hour - 12 = 0 then toString (12 : Int) else toString (peak_hour - 12)) ++ "pm"

/-- The shared percentage shape of lines 347, 355, 359 and 458: a share of
the filtered batch, rounded to one decimal, 0 on an empty batch. -/
def sharePct (x : ℚ) (n : Nat) : ℚ :=
  if n ≠ 0 then pyRound1 (x / (n : ℚ) * 100) else 0

/-- Lines 255-264: the first top_venues construction. For each of the ten
highest-ranked raw venue names, next(...) scans the registry for an id whose
frozen stored name equals the raw name; when no id matches, the default
empty dict flows into venues.get as an unhashable key and the statement
raises TypeError. Only this failure behaviour matters downstream: the
produced display list is immediately overwritten by lines 267-278. -/
def top_venues_stage (venues : List (String × VenueInfo))
    (venue_counts : List (String × Nat)) : Except String Unit :=
  if ((most_common venue_counts).take 10).all
      (fun e => venues.any fun p => p.2.name == e.1) then Except.ok ()
  else Except.error "TypeError"

/-- Day span of lines 320-324: last distinct date minus first plus one, 0
with no dates. -/
def total_days_of (sorted_dates : List Int) : Int :=
  match sorted_dates with
  | [] => 0
  | d :: _ => sorted_dates.getLastD d - d + 1

/-- Activity percentage of lines 325-328: distinct active days over the day
span, one-decimal rounding, 0 with no dates. -/
def activity_percentage_of (days_active : Nat) (sorted_dates : List Int) : ℚ :=
  match sorted_dates with
  | [] => 0
  | _ :: _ =>
    if total_days_of sorted_dates > 0 then
      pyRound1 ((days_active : ℚ) / (total_days_of sorted_dates : ℚ) * 100)
    else 0

/-- The weekend and weekday share shape of lines 388-389: percentage of a
positive total, 0 otherwise. -/
def weekSharePct (part total : Nat) : ℚ :=
  if total > 0 then pyRound1 ((part : ℚ) / (total : ℚ) * 100) else 0

/-- Lines 454-455: records whose own raw venue country equals the implicit
home country. -/
def us_count (checkins : List Checkin) : Nat :=
  checkins.countP fun c =>
    ((venueOf c).location.getD emptyLocation).country == some "United States"

/-- Lines 425-427: the home city label when both the city tally and the
registry are non-empty. -/
def homeCityOf (agg : AggState) : Option String :=
  if !agg.city_counts.isEmpty && !agg.venues.isEmpty then
    some ((most_common agg.city_counts).headD ("", 0)).1
  else none

/-- The stats record assembled after the aggregation sweep (lines 149-498),
as a function of the filtered batch and the aggregation output. -/
def buildStats (checkins : List Checkin) (agg : AggState) : Stats :=
  let n := checkins.length
  let unique_venues := agg.venues.length
  let sorted_dates := sortInts agg.checkin_dates
  let days_active := agg.checkin_dates.length
  let morning := (([5, 6, 7, 8, 9, 10, 11] : List Int).map (tget agg.hourly)).sum
  let afternoon := (([12, 13, 14, 15, 16] : List Int).map (tget agg.hourly)).sum
  let evening := (([17, 18, 19, 20] : List Int).map (tget agg.hourly)).sum
  let night := (([21, 22, 23, 0, 1, 2, 3, 4] : List Int).map (tget agg.hourly)).sum
  let time_of_day : TimeOfDay := ⟨morning, afternoon, evening, night⟩
  let max_time := firstMax ("morning", morning)
    [("afternoon", afternoon), ("evening", evening), ("night", night)]
  let weekend := tget agg.daily "Saturday" + tget agg.daily "Sunday"
  let weekday := ((["Monday", "Tuesday", "Wednesday", "Thursday", "Friday"].map
    (tget agg.daily))).sum
  let wtotal := weekend + weekday
  let one_time_venues := (agg.venue_counts.filter fun e => e.2 == 1).length
  let us_checkins := us_count checkins
  let international_checkins : Int := (n : Int) - (us_checkins : Int)
  let solo_checkins : Int := (n : Int) - (agg.checkins_with_friends : Int)
  let friend_percentage := sharePct (agg.checkins_with_friends : ℚ) n
  let pstats : PStats :=
    ⟨n, unique_venues, most_common agg.country_counts, agg.city_counts.length,
     friend_percentage, time_of_day⟩
  { total_checkins := n
    unique_venues := unique_venues
    unique_categories := agg.category_counts.length
    unique_cities := agg.city_counts.length
    countries := most_common agg.country_counts
    hourly := agg.hourly
    peak_hour := peak_hour_of agg.hourly
    peak_hour_formatted := peak_hour_formatted_of (peak_hour_of agg.hourly)
    days_active := days_active
    total_days := total_days_of sorted_dates
    activity_percentage := activity_percentage_of days_active sorted_dates
    avg_checkins_per_active_day :=
      if !agg.checkin_dates.isEmpty then pyRound1 ((n : ℚ) / (days_active : ℚ)) else 0
    longest_streak := calculate_longest_streak sorted_dates
    checkins_with_friends := agg.checkins_with_friends
    friend_percentage := friend_percentage
    solo_checkins := solo_checkins
    solo_percentage := sharePct (solo_checkins : ℚ) n
    checkins_with_shouts := agg.checkins_with_shouts
    shout_percentage := sharePct (agg.checkins_with_shouts : ℚ) n
    total_photos := agg.total_photos
    time_of_day := time_of_day
    time_personality :=
      (List.lookup max_time.1
        [("morning", "Early Bird"), ("afternoon", "Day Explorer"),
         ("evening", "Evening Wanderer"), ("night", "Night Owl")]).getD "Explorer"
    weekend_percentage := weekSharePct weekend wtotal
    weekday_percentage := weekSharePct weekday wtotal
    map_points := agg.map_points.map fun e => (e.1.1, e.1.2, String.intercalate "," e.2)
    one_time_venues := one_time_venues
    one_time_percentage :=
      if !agg.venues.isEmpty then pyRound1 ((one_time_venues : ℚ) / (unique_venues : ℚ) * 100)
      else 0
    home_city := homeCityOf agg
    international_checkins := international_checkins
    international_percentage := sharePct (international_checkins : ℚ) n
    longest_gap :=
      if sorted_dates.length > 1 then some (longestGapScan sorted_dates) else none
    personality := determine_personality pstats agg.category_counts agg.city_counts }

/-- The post-filter pipeline of analyze_checkins (lines 146-500): aggregate,
run the first top_venues construction (which can raise TypeError) and the
home-coordinate stage (whose means can raise ZeroDivisionError), and
assemble the result record. -/
def analyzeBody (checkins : List Checkin) : Except String Stats :=
  match aggregate checkins with
  | Except.error e => Except.error e
  | Except.ok agg =>
    match top_venues_stage agg.venues agg.venue_counts with
    | Except.error e => Except.error e
    | Except.ok _ =>
      match homeCoordsStage agg.venues (homeCityOf agg) with
      | Except.error e => Except.error e
      | Except.ok _ => Except.ok (buildStats checkins agg)

/-- analyze_checkins, line 108: Except.ok none is the empty-dict return of
the empty-input branch, Except.ok some a populated result, Except.error a
raised exception. -/
def analyze_checkins (checkins : List Checkin) (exclude_sensitive : Bool) :
    Except String (Option Stats) :=
  if checkins.isEmpty then Except.ok none
  else
    Except.map Option.some
      (analyzeBody (if exclude_sensitive then privacyFilter checkins else checkins))

/-! Spec-side definitions, written from the spec and claim wording, for
comparison against the source-translated definitions above. -/

/-- Modelled from the spec words: a record is sensitive when its venue name
or one of its category names contains a sensitive term, case-insensitively. -/
def SensitiveSpec (c : Checkin) : Prop :=
  ∃ term ∈ SENSITIVE_CATEGORIES,
    strContains (lowerStr ((venueOf c).name.getD "")) term = true ∨
    ∃ cat ∈ (venueOf c).categories, strContains (lowerStr (cat.name.getD "")) term = true

instance (c : Checkin) : Decidable (SensitiveSpec c) := by
  unfold SensitiveSpec; infer_instance

/-- Spec-side hour formatting: h am for hours 0-11, h-12 pm for 13-23, and
noon rendered 12pm. -/
def fmtSpec (h : Int) : String :=
  if h < 12 then toString h ++ "am"
  else if h = 12 then "12pm"
  else toString (h - 12) ++ "pm"

/-- Spec-side longest gap: the maximum of curr - prev - 1 over adjacent
dates of the sorted distinct list. -/
def specGapFold (l : List Int) : Int :=
  ((l.zip l.tail).map fun p => p.2 - p.1 - 1).foldl max 0

/-- The tie-break the claim asserts for the peak hour: the smallest hour
attaining the maximum tally. -/
def smallestMaxHour (t : List (Int × Nat)) : Int :=
  let m := (t.map Prod.snd).foldl max 0
  ((t.filter fun e => e.2 == m).map Prod.fst).foldl min 24

/-- k is the first key of the association list attaining the maximum value:
some occurrence of k splits the list into a prefix of strictly smaller
values and a suffix of no larger values. -/
def IsFirstMax {α β : Type} [LT β] [LE β] (t : List (α × β)) (k : α) : Prop :=
  ∃ c pre suf, t = pre ++ (k, c) :: suf ∧ (∀ e ∈ pre, e.2 < c) ∧ ∀ e ∈ suf, e.2 ≤ c

/-- Replace an exactly-zero coordinate by an absent one. -/
def zeroToNone : Option ℚ → Option ℚ
  | some x => if x = 0 then none else some x
  | none => none

/-- A registered venue with its zero coordinate fields made absent. -/
def zeroCoordToNone (v : VenueInfo) : VenueInfo :=
  { v with lat := zeroToNone v.lat, lng := zeroToNone v.lng }

/-! Concrete inputs used by counterexamples and witnesses. -/

def mkVenue (vid vname city country : String) (lat lng : Option ℚ) : Venue :=
  ⟨some vid, some vname, [], some ⟨some city, none, some country, lat, lng⟩⟩

def mkCheckin (v : Venue) (ts : Int) : Checkin := ⟨some v, ts, 0, [], none, []⟩

/-- A single well-formed record at a coordinate-less venue: its city becomes
the home city and the home-coordinate mean divides by zero. -/
def c1Checkin : Checkin := mkCheckin (mkVenue "v1" "Corner Cafe" "Paris" "France" none none) 0

/-- A record at a venue whose name matches the sensitive list. -/
def churchCheckin : Checkin :=
  mkCheckin (mkVenue "v2" "St. Mary\x27s Church" "Springfield" "United States" none none) 0

/-- Two records carrying one venue id under two different raw names. -/
def c3A : Checkin := mkCheckin (mkVenue "v1" "A" "C" "X" (some 1) (some 2)) 0
def c3B : Checkin := mkCheckin (mkVenue "v1" "B" "C" "X" (some 1) (some 2)) 3600
def B3 : List Checkin := [c3A, c3B]

/-- Two records carrying one venue id whose raw countries differ. -/
def c3us : Checkin := mkCheckin (mkVenue "vus" "P" "C" "United States" (some 1) (some 2)) 0
def c3fr : Checkin := mkCheckin (mkVenue "vus" "P" "C" "France" (some 1) (some 2)) 3600
def B3i : List Checkin := [c3us, c3fr]

/-- Check-ins on days 1, 2, 3, 5, 6, 7, 8: streak 4 over days 5-8; one
missing day between days 3 and 5. -/
def B5 : List Checkin :=
  ([1, 2, 3, 5, 6, 7, 8] : List Int).map fun d =>
    mkCheckin (mkVenue "v" "V" "C" "X" (some 1) (some 2)) (d * 86400)

/-- First record at local hour 23, second at local hour 5 of the next day:
the hourly tallies tie at 1. -/
def B6 : List Checkin :=
  [mkCheckin (mkVenue "v1" "V1" "C" "X" (some 1) (some 2)) (23 * 3600),
   mkCheckin (mkVenue "v2" "V2" "C" "X" (some 1) (some 2)) (86400 + 5 * 3600)]

/-- The classifier stats of an empty effective batch. -/
def pstats0 : PStats := ⟨0, 0, [], 0, 0, ⟨0, 0, 0, 0⟩⟩

/-- Classifier stats of a non-empty batch on which every archetype rule
scores 0. -/
def psAllZero : PStats := ⟨10, 5, [("Unknown", 10)], 1, 0, ⟨2, 3, 3, 2⟩⟩
def ccAllZero : List (String × Nat) := [("Other", 10)]
def cycAllZero : List (String × Nat) := [("A, B", 5), ("C, D", 5)]

/-- One record at a fixed city/coordinate venue, used to assemble the C4
batch. -/
def c4rec (vid vname : String) : Checkin :=
  mkCheckin (mkVenue vid vname "C" "X" (some 1) (some 2)) 0

/-- Ten stable venues A1..A10 (one visit each) followed by two more visits
reusing id a1 under fresh raw names B1 and B2. The ten most common raw
names are A1..A10, all matching frozen registry names, so the top_venues
construction passes; B1 and B2 rank below the top ten, and with twelve raw
names seen once over ten registered ids the one-time share exceeds 100. -/
def B4 : List Checkin :=
  [c4rec "a1" "A1", c4rec "a2" "A2", c4rec "a3" "A3", c4rec "a4" "A4", c4rec "a5" "A5",
   c4rec "a6" "A6", c4rec "a7" "A7", c4rec "a8" "A8", c4rec "a9" "A9", c4rec "a10" "A10",
   c4rec "a1" "B1", c4rec "a1" "B2"]

/-- Home-city venues: one with both coordinates, one with latitude exactly 0
and longitude 40. -/
def hv1 : VenueInfo := ⟨"V1", "Other", "C", "", "X", some 10, some 20⟩
def hv2 : VenueInfo := ⟨"V2", "Other", "C", "", "X", some 0, some 40⟩
/-- hv2 with both coordinate fields absent. -/
def hv2none : VenueInfo := ⟨"V2", "Other", "C", "", "X", none, none⟩

/-- Projection of a normally produced populated result. -/
def statsOf (r : Except String (Option Stats)) : Option Stats :=
  match r with
  | Except.ok (some s) => some s
  | _ => none

def dummyStats : Stats :=
  ⟨0, 0, 0, 0, [], [], 0, "", 0, 0, 0, 0, 0, 0, 0, 0, 0, 0, 0, 0,
   ⟨0, 0, 0, 0⟩, "", 0, 0, [], 0, 0, none, 0, 0, none, adventurerDefault⟩

/-! General lemmas about the embedded operations. -/

lemma roundHalfEven_nonneg {q : ℚ} (h : 0 ≤ q) : 0 ≤ roundHalfEven q := by
  have h0 : (0 : ℤ) ≤ Rat.floor q := Rat.le_floor.mpr (by exact_mod_cast h)
  simp only [roundHalfEven]
  split_ifs <;> omega

lemma roundHalfEven_le {q : ℚ} {B : ℤ} (h : q ≤ (B : ℚ)) : roundHalfEven q ≤ B := by
  have hfq : (Rat.floor q : ℚ) ≤ q := Rat.le_floor.mp le_rfl
  have hfB : Rat.floor q ≤ B := by
    by_contra hc
    push_neg at hc
    have h2 : ((B + 1 : ℤ) : ℚ) ≤ q := Rat.le_floor.mp (by omega)
    push_cast at h2
    linarith
  simp only [roundHalfEven]
  split_ifs with h1 h2 h3
  · exact hfB
  · have hlt : (Rat.floor q : ℚ) < (B : ℚ) := by linarith
    have : Rat.floor q < B := by exact_mod_cast hlt
    omega
  · exact hfB
  · have hr : (1 : ℚ) / 2 ≤ q - (Rat.floor q : ℚ) := not_lt.mp h1
    have hlt : (Rat.floor q : ℚ) < (B : ℚ) := by linarith
    have : Rat.floor q < B := by exact_mod_cast hlt
    omega

lemma pyRound1_nonneg {q : ℚ} (h : 0 ≤ q) : 0 ≤ pyRound1 q := by
  have h1 : (0 : ℤ) ≤ roundHalfEven (q * 10) := roundHalfEven_nonneg (by linarith)
  have h2 : (0 : ℚ) ≤ (roundHalfEven (q * 10) : ℚ) := by exact_mod_cast h1
  unfold pyRound1
  linarith

lemma pyRound1_le_100 {q : ℚ} (h : q ≤ 100) : pyRound1 q ≤ 100 := by
  have h1 : roundHalfEven (q * 10) ≤ (1000 : ℤ) := roundHalfEven_le (by push_cast; linarith)
  have h2 : ((roundHalfEven (q * 10) : ℤ) : ℚ) ≤ 1000 := by exact_mod_cast h1
  unfold pyRound1
  linarith

/-- A rounded share of a positive total, with numerator between 0 and the
total, stays between 0 and 100. -/
lemma pct_bounds {x y : ℚ} (hx : 0 ≤ x) (hxy : x ≤ y) (hy : 0 < y) :
    0 ≤ pyRound1 (x / y * 100) ∧ pyRound1 (x / y * 100) ≤ 100 := by
  have h1 : 0 ≤ x / y * 100 := by positivity
  have h2 : x / y * 100 ≤ 100 := by
    have : x / y ≤ 1 := (div_le_one hy).mpr hxy
    linarith
  exact ⟨pyRound1_nonneg h1, pyRound1_le_100 h2⟩

lemma sharePct_bounds {x : ℚ} {n : ℕ} (hx : 0 ≤ x) (hxn : x ≤ (n : ℚ)) :
    0 ≤ sharePct x n ∧ sharePct x n ≤ 100 := by
  unfold sharePct
  split_ifs with h
  · exact pct_bounds hx hxn (by exact_mod_cast Nat.pos_of_ne_zero h)
  · norm_num

lemma sharePct_nonneg {x : ℚ} {n : ℕ} (hx : 0 ≤ x) (hxn : x ≤ (n : ℚ)) :
    0 ≤ sharePct x n := (sharePct_bounds hx hxn).1

lemma insertAsc_eq_orderedInsert (x : Int) (l : List Int) :
    insertAsc x l = List.orderedInsert (· ≤ ·) x l := by
  induction l with
  | nil => rfl
  | cons y t ih => simp only [insertAsc, List.orderedInsert, ih]

lemma sortInts_eq_insertionSort (l : List Int) :
    sortInts l = List.insertionSort (· ≤ ·) l := by
  induction l with
  | nil => rfl
  | cons a t ih =>
    simp only [sortInts, List.foldr, List.insertionSort, insertAsc_eq_orderedInsert]
    simp only [sortInts] at ih
    rw [ih]

lemma sortInts_perm (l : List Int) : List.Perm (sortInts l) l := by
  rw [sortInts_eq_insertionSort]
  exact List.perm_insertionSort _ l

lemma sortInts_length (l : List Int) : (sortInts l).length = l.length :=
  (sortInts_perm l).length_eq

lemma sortInts_sorted (l : List Int) : (sortInts l).Sorted (· ≤ ·) := by
  rw [sortInts_eq_insertionSort]
  exact List.sorted_insertionSort _ l

lemma sortInts_nodup {l : List Int} (h : l.Nodup) : (sortInts l).Nodup :=
  (sortInts_perm l).nodup_iff.mpr h

lemma sortInts_sorted_lt {l : List Int} (h : l.Nodup) : (sortInts l).Sorted (· < ·) := by
  have hs := sortInts_sorted l
  have hn := sortInts_nodup h
  exact hs.lt_of_le hn

/-- A strictly increasing integer list fits inside the closed interval from
its head to its last element. -/
lemma strict_chain_length_le :
    ∀ (rest : List Int) (d : Int), (d :: rest).Sorted (· < ·) →
      ((d :: rest).length : Int) ≤ (d :: rest).getLastD d - d + 1 := by
  intro rest
  induction rest with
  | nil => intro d _; simp
  | cons e rest' ih =>
    intro d hsort
    have hde : d < e := (List.sorted_cons.mp hsort).1 e (by simp)
    have htail : (e :: rest').Sorted (· < ·) := (List.sorted_cons.mp hsort).2
    have := ih e htail
    simp only [List.getLastD_cons, List.length_cons] at *
    push_cast at *
    omega

lemma addDate_nodup {l : List Int} {d : Int} (h : l.Nodup) : (addDate l d).Nodup := by
  unfold addDate
  split_ifs with hc
  · exact h
  · have hd : d ∉ l := by simpa using hc
    simp only [List.nodup_append, List.nodup_cons, List.not_mem_nil, not_false_iff,
      List.nodup_nil, and_true, true_and]
    exact ⟨h, by intro a ha hmem; simp at hmem; subst hmem; exact hd ha⟩

/-- Per-step facts of the aggregation loop: the with-friends and shout
counters grow by at most one, and distinctness of the date set is
preserved. -/
lemma aggStep_ok {st : AggState} {c : Checkin} {st' : AggState}
    (h : aggStep st c = Except.ok st') :
    st'.checkins_with_friends ≤ st.checkins_with_friends + 1 ∧
    st'.checkins_with_shouts ≤ st.checkins_with_shouts + 1 ∧
    (st.checkin_dates.Nodup → st'.checkin_dates.Nodup) := by
  simp only [aggStep] at h
  cases hr : registerVenue st.venues (venueOf c) (venueIdOf c) (venueNameOf c) with
  | error e => rw [hr] at h; cases h
  | ok venues =>
    rw [hr] at h
    injection h with h
    subst h
    refine ⟨?_, ?_, fun hn => addDate_nodup hn⟩
    · dsimp only; split_ifs <;> omega
    · dsimp only; split_ifs <;> omega

/-- The aggregation fold keeps the with-friends and shout counters below the
number of processed records and keeps the date set distinct. -/
lemma aggFold_bounds :
    ∀ (l : List Checkin) (st st' : AggState), aggFold st l = Except.ok st' →
      st'.checkins_with_friends ≤ st.checkins_with_friends + l.length ∧
      st'.checkins_with_shouts ≤ st.checkins_with_shouts + l.length ∧
      (st.checkin_dates.Nodup → st'.checkin_dates.Nodup) := by
  intro l
  induction l with
  | nil =>
    intro st st' h
    simp only [aggFold] at h
    injection h with h
    subst h
    simp
  | cons c t ih =>
    intro st st' h
    simp only [aggFold] at h
    cases hs : aggStep st c with
    | error e => rw [hs] at h; cases h
    | ok st1 =>
      rw [hs] at h
      obtain ⟨h1, h2, h3⟩ := ih st1 st' h
      obtain ⟨g1, g2, g3⟩ := aggStep_ok hs
      simp only [List.length_cons]
      exact ⟨by omega, by omega, fun hn => h3 (g3 hn)⟩

/-- Inversion of a successful run of the engine: the effective batch
aggregates successfully and the result is the assembled record. -/
lemma analyze_ok_some {l : List Checkin} {flag : Bool} {s : Stats}
    (h : analyze_checkins l flag = Except.ok (some s)) :
    ∃ agg, aggregate (if flag then privacyFilter l else l) = Except.ok agg ∧
      s = buildStats (if flag then privacyFilter l else l) agg := by
  unfold analyze_checkins at h
  split at h
  · cases h
  · cases hb : analyzeBody (if flag then privacyFilter l else l) with
    | error e => rw [hb] at h; cases h
    | ok s' =>
      rw [hb] at h
      simp only [Except.map] at h
      injection h with h
      injection h with h
      subst h
      unfold analyzeBody at hb
      cases ha : aggregate (if flag then privacyFilter l else l) with
      | error e => rw [ha] at hb; cases hb
      | ok agg =>
        rw [ha] at hb
        dsimp only at hb
        cases ht : top_venues_stage agg.venues agg.venue_counts with
        | error e => rw [ht] at hb; cases hb
        | ok u =>
          rw [ht] at hb
          dsimp only at hb
          cases hh : homeCoordsStage agg.venues (homeCityOf agg) with
          | error e => rw [hh] at hb; cases hb
          | ok p =>
            rw [hh] at hb
            injection hb with hb
            exact ⟨agg, rfl, hb.symm⟩

/-! Claim theorems. -/

/-- C1: the claim says analyze_checkins never raises and that every division,
in particular the home-coordinate means over home-city venues that have
coordinates, is guarded. The code guards the means only by the home-city
venue list being non-empty, not by a venue with coordinates existing: a
single record at a coordinate-less venue makes the latitude mean divide by
zero and the call raises ZeroDivisionError. -/
theorem spec_c1 : analyze_checkins [c1Checkin] false = Except.error "ZeroDivisionError" := by
  with_unfolding_all rfl

/-- C2 counterexample: when the privacy filter reduces a non-empty batch to
empty the engine does not return the empty mapping; it returns a populated
result whose total_checkins is 0. -/
theorem spec_c2_counterexample :
    analyze_checkins [churchCheckin] true ≠ Except.ok none ∧
    (statsOf (analyze_checkins [churchCheckin] true)).map Stats.total_checkins = some 0 := by
  have h2 : (statsOf (analyze_checkins [churchCheckin] true)).map Stats.total_checkins
      = some 0 := by with_unfolding_all rfl
  refine ⟨?_, h2⟩
  intro h
  rw [h] at h2
  simp [statsOf] at h2

/-- C2 amended: the engine returns the empty mapping exactly when the input
list itself is empty; a non-empty input that the filter reduces to empty
proceeds through the pipeline and yields a populated (or failing) result,
never the empty mapping. -/
theorem spec_c2 (l : List Checkin) (flag : Bool) :
    analyze_checkins l flag = Except.ok none ↔ l = [] := by
  constructor
  · intro h
    cases l with
    | nil => rfl
    | cons c t =>
      unfold analyze_checkins at h
      simp only [List.isEmpty_cons, Bool.false_eq_true, if_false] at h
      cases hb : analyzeBody (if flag then privacyFilter (c :: t) else c :: t) with
      | error e => rw [hb] at h; cases h
      | ok s => rw [hb] at h; simp [Except.map] at h
  · intro h
    subst h
    rfl

/-- C9: the engine is a pure function of the record list and the flag; equal
inputs give equal outputs, with no hidden state (the embedding carries no
state at all, matching the source, which reads only immutable module
constants). -/
theorem spec_c9 (l₁ l₂ : List Checkin) (f₁ f₂ : Bool) (hl : l₁ = l₂) (hf : f₁ = f₂) :
    analyze_checkins l₁ f₁ = analyze_checkins l₂ f₂ := by
  rw [hl, hf]

theorem spec_c9_witness :
    analyze_checkins [c1Checkin] false = analyze_checkins [c1Checkin] false :=
  spec_c9 [c1Checkin] [c1Checkin] false false rfl rfl

/-- Python max with a key returns the first maximal element: the scanned list
splits into a strictly smaller prefix and a no-larger suffix around it. -/
lemma firstMax_decomp {α β : Type} [LinearOrder β] :
    ∀ (l : List (α × β)) (x : α × β), ∃ pre suf,
      x :: l = pre ++ firstMax x l :: suf ∧
      (∀ e ∈ pre, e.2 < (firstMax x l).2) ∧
      ∀ e ∈ suf, e.2 ≤ (firstMax x l).2 := by
  intro l
  induction l with
  | nil =>
    intro x
    exact ⟨[], [], rfl, by simp, by simp⟩
  | cons y t ih =>
    intro x
    by_cases hyx : y.2 > x.2
    · have hfx : firstMax x (y :: t) = firstMax y t := by simp [firstMax, hyx]
      rw [hfx]
      obtain ⟨pre, suf, hdec, hpre, hsuf⟩ := ih y
      have hy_le : y.2 ≤ (firstMax y t).2 := by
        have hy_mem : y ∈ pre ++ firstMax y t :: suf := by
          rw [← hdec]; exact List.mem_cons_self y t
        rcases List.mem_append.mp hy_mem with hL | hR
        · exact le_of_lt (hpre y hL)
        · rcases List.mem_cons.mp hR with he | hsu
          · exact le_of_eq (congrArg Prod.snd he)
          · exact hsuf y hsu
      refine ⟨x :: pre, suf, ?_, ?_, hsuf⟩
      · rw [List.cons_append, ← hdec]
      · intro e he
        rcases List.mem_cons.mp he with he | he
        · rw [he]; exact lt_of_lt_of_le hyx hy_le
        · exact hpre e he
    · have hyx' : y.2 ≤ x.2 := le_of_not_lt hyx
      have hfx : firstMax x (y :: t) = firstMax x t := by simp [firstMax, hyx]
      rw [hfx]
      obtain ⟨pre, suf, hdec, hpre, hsuf⟩ := ih x
      cases pre with
      | nil =>
        simp only [List.nil_append, List.cons.injEq] at hdec
        obtain ⟨hfmx, hsuft⟩ := hdec
        refine ⟨[], y :: t, ?_, by simp, ?_⟩
        · simp [← hfmx]
        · intro e he
          rcases List.mem_cons.mp he with he | he
          · rw [he, ← hfmx]; exact hyx'
          · exact hsuf e (hsuft ▸ he)
      | cons p pre' =>
        simp only [List.cons_append, List.cons.injEq] at hdec
        obtain ⟨hp1, hp2⟩ := hdec
        have hxlt : x.2 < (firstMax x t).2 := by
          have h2 := hpre p (List.mem_cons_self p pre')
          have hx2 : x.2 = p.2 := congrArg Prod.snd hp1
          rw [hx2]; exact h2
        refine ⟨x :: y :: pre', suf, ?_, ?_, hsuf⟩
        · rw [List.cons_append, List.cons_append, ← hp2]
        · intro e he
          rcases List.mem_cons.mp he with he | he
          · rw [he]; exact hxlt
          rcases List.mem_cons.mp he with he | he
          · rw [he]; exact lt_of_le_of_lt hyx' hxlt
          · exact hpre e (List.mem_cons_of_mem p he)

/-- The running-maximum gap scan computes the fold of max over the adjacent
differences minus one. -/
lemma gapGo_fst :
    ∀ (t : List Int) (prev : Int) (acc : Int × Option Int × Option Int),
      (gapGo prev acc t).1
        = (((prev :: t).zip t).map fun p => p.2 - p.1 - 1).foldl max acc.1 := by
  intro t
  induction t with
  | nil => intro prev acc; rfl
  | cons curr rest ih =>
    intro prev acc
    have hzip : ((prev :: curr :: rest).zip (curr :: rest))
        = (prev, curr) :: ((curr :: rest).zip rest) := rfl
    rw [hzip]
    simp only [List.map_cons, List.foldl_cons, gapGo]
    split_ifs with hg
    · rw [ih curr (curr - prev - 1, some prev, some curr)]
      have : max acc.1 (curr - prev - 1) = curr - prev - 1 := max_eq_right (le_of_lt hg)
      rw [this]
    · rw [ih curr acc]
      have : max acc.1 (curr - prev - 1) = acc.1 := max_eq_left (le_of_not_lt hg)
      rw [this]

lemma longestGapScan_fst (l : List Int) : (longestGapScan l).1 = specGapFold l := by
  cases l with
  | nil => rfl
  | cons d rest =>
    simp only [longestGapScan, specGapFold]
    rw [gapGo_fst]
    rfl

/-- C5: on the claimed batch (check-ins on days 1, 2, 3, 5, 6, 7, 8 of one
month) the engine reports longest_streak 4 and a longest gap of 1 day
bounded by days 3 and 5; a single distinct date yields streak 1; and the gap
scan value equals the maximum of curr - prev - 1 over adjacent sorted
distinct dates (and the gap keys are present exactly when at least two
distinct dates exist, which the concrete batch witnesses). -/
theorem spec_c5 :
    (statsOf (analyze_checkins B5 false)).map (fun s => (s.longest_streak, s.longest_gap))
        = some (4, some (1, some 3, some 5)) ∧
    (∀ d : Int, calculate_longest_streak [d] = 1) ∧
    ∀ l : List Int, (longestGapScan l).1 = specGapFold l := by
  refine ⟨by with_unfolding_all rfl, fun d => rfl, longestGapScan_fst⟩

/-- C6 counterexample: hours 23 and 5 tie at one check-in each; the claimed
smallest-hour tie-break would choose 5, but the engine reports 23, because
Python max scans the counter in key insertion order and hour 23 was seen
first. -/
theorem spec_c6_counterexample :
    (statsOf (analyze_checkins B6 false)).map (fun s => (s.hourly, s.peak_hour))
        = some ([(23, 1), (5, 1)], 23) ∧
    smallestMaxHour [(23, 1), (5, 1)] = 5 ∧ (23 : Int) ≠ 5 := by
  refine ⟨by with_unfolding_all rfl, by with_unfolding_all rfl, by decide⟩

lemma peak_hour_formatted_of_eq_fmtSpec {h : Int} (h0 : 0 ≤ h) (h1 : h < 24) :
    peak_hour_formatted_of h = fmtSpec h := by
  interval_cases h <;> rfl

/-- C6 amended: peak_hour is the first hour in counter insertion order
attaining the maximum tally (0 when the counter is empty), and the rendering
is h am for hours 0-11 and h-12 pm for hours 12-23 with noon as 12pm. -/
theorem spec_c6 (l : List Checkin) (flag : Bool) (s : Stats)
    (h : analyze_checkins l flag = Except.ok (some s)) :
    (s.hourly = [] → s.peak_hour = 0) ∧
    (s.hourly ≠ [] → IsFirstMax s.hourly s.peak_hour) ∧
    (0 ≤ s.peak_hour → s.peak_hour < 24 → s.peak_hour_formatted = fmtSpec s.peak_hour) := by
  obtain ⟨agg, hagg, hs⟩ := analyze_ok_some h
  have hh : s.hourly = agg.hourly := by rw [hs]; rfl
  have hp : s.peak_hour = peak_hour_of agg.hourly := by rw [hs]; rfl
  have hf : s.peak_hour_formatted = peak_hour_formatted_of (peak_hour_of agg.hourly) := by
    rw [hs]; rfl
  refine ⟨?_, ?_, ?_⟩
  · intro he
    rw [hh] at he
    rw [hp, he]
    rfl
  · intro hne
    rw [hh] at hne
    rw [hp, hh]
    cases hhl : agg.hourly with
    | nil => exact absurd hhl hne
    | cons e rest =>
      obtain ⟨pre, suf, hdec, hpre, hsuf⟩ := firstMax_decomp rest e
      refine ⟨(firstMax e rest).2, pre, suf, ?_, hpre, hsuf⟩
      rw [show ((peak_hour_of (e :: rest), (firstMax e rest).2) : Int × Nat)
            = firstMax e rest from ?_]
      · exact hdec
      · show ((firstMax e rest).1, (firstMax e rest).2) = firstMax e rest
        exact Prod.mk.eta
  · intro h0 h24
    rw [hp] at h0 h24
    rw [hf, hp]
    exact peak_hour_formatted_of_eq_fmtSpec h0 h24

/-- Extraction of the concrete B6 result, so the witness can instantiate the
amended C6 theorem at it. -/
def s6 : Stats := (statsOf (analyze_checkins B6 false)).getD dummyStats

theorem spec_c6_witness : IsFirstMax s6.hourly s6.peak_hour :=
  (spec_c6 B6 false s6 (by with_unfolding_all rfl)).2.1 (by with_unfolding_all decide)

lemma firstMax_mem {α β : Type} [LinearOrder β] (x : α × β) (l : List (α × β)) :
    firstMax x l ∈ x :: l := by
  obtain ⟨pre, suf, hdec, _, _⟩ := firstMax_decomp l x
  rw [hdec]
  exact List.mem_append.mpr (Or.inr (List.mem_cons_self _ _))

lemma lookup_isSome_of_mem_fst {l : List (String × PType)} {k : String}
    (h : k ∈ l.map Prod.fst) : ∃ t, List.lookup k l = some t := by
  induction l with
  | nil => simp at h
  | cons e rest ih =>
    obtain ⟨a, b⟩ := e
    by_cases hk : k = a
    · exact ⟨b, by simp [List.lookup, hk]⟩
    · simp only [List.map_cons, List.mem_cons] at h
      rcases h with h | h
      · exact absurd h hk
      · obtain ⟨t, ht⟩ := ih h
        have hb : (k == a) = false := by simp [hk]
        exact ⟨t, by simp [List.lookup, hb, ht]⟩

/-- The fallback entry of the lookup after best-type selection (never used,
since the selected key is always a catalogue key). -/
def lookupFallback : PType :=
  ⟨adventurerDefault.name, adventurerDefault.emoji, adventurerDefault.description,
   Rule.uniqueRatioRule 0.7⟩

lemma determine_personality_eq (ps : PStats) (cc yc : List (String × Nat))
    (h : ps.total_checkins ≠ 0) (e : String × ℚ) (rest : List (String × ℚ))
    (hsc : personalityScores ps cc yc = e :: rest) :
    determine_personality ps cc yc =
      ⟨some (firstMax e rest).1,
       ((List.lookup (firstMax e rest).1 PERSONALITY_TYPES).getD lookupFallback).name,
       ((List.lookup (firstMax e rest).1 PERSONALITY_TYPES).getD lookupFallback).emoji,
       ((List.lookup (firstMax e rest).1 PERSONALITY_TYPES).getD lookupFallback).description⟩ := by
  unfold determine_personality
  rw [if_neg h]
  simp only [hsc]
  rfl

/-- C7 counterexample: on an empty effective batch the classifier returns the
raw Adventurer catalogue entry, which carries no archetype identifier, so
the returned value does not include the identifier the claim promises. -/
theorem spec_c7_counterexample : (determine_personality pstats0 [] []).type = none := rfl

/-- C7 amended: the classifier scores all eleven catalogue entries and
returns the first maximal one in catalogue order together with its display
name, emoji and description (witnessed degenerate all-zero case included);
on an empty batch it short-circuits to the Adventurer default, which carries
the display fields but not the identifier. -/
theorem spec_c7 (ps : PStats) (cc yc : List (String × Nat)) :
    (ps.total_checkins = 0 → determine_personality ps cc yc = adventurerDefault) ∧
    (ps.total_checkins ≠ 0 → ∃ id t, List.lookup id PERSONALITY_TYPES = some t ∧
      determine_personality ps cc yc = ⟨some id, t.name, t.emoji, t.description⟩ ∧
      IsFirstMax (personalityScores ps cc yc) id) ∧
    determine_personality psAllZero ccAllZero cycAllZero
      = ⟨some "coffee_connoisseur", "The Coffee Connoisseur", "☕",
         "Your year was fueled by caffeine. Coffee shops were your go-to destination."⟩ := by
  refine ⟨?_, ?_, by with_unfolding_all rfl⟩
  · intro h
    unfold determine_personality
    rw [if_pos h]
  · intro h
    obtain ⟨e, rest, hsc⟩ : ∃ e rest, personalityScores ps cc yc = e :: rest := by
      unfold personalityScores PERSONALITY_TYPES
      simp only [List.map_cons]
      exact ⟨_, _, rfl⟩
    have hmem : firstMax e rest ∈ personalityScores ps cc yc := by
      rw [hsc]; exact firstMax_mem e rest
    have hkey : (firstMax e rest).1 ∈ PERSONALITY_TYPES.map Prod.fst := by
      unfold personalityScores at hmem
      simp only [List.mem_map] at hmem
      obtain ⟨y, hy_mem, hy_eq⟩ := hmem
      have : (firstMax e rest).1 = y.1 := by rw [← hy_eq]
      rw [this]
      exact List.mem_map_of_mem Prod.fst hy_mem
    obtain ⟨t, hlt⟩ := lookup_isSome_of_mem_fst hkey
    refine ⟨(firstMax e rest).1, t, hlt, ?_, ?_⟩
    · rw [determine_personality_eq ps cc yc h e rest hsc, hlt]
      rfl
    · rw [hsc]
      obtain ⟨pre, suf, hdec, hpre, hsuf⟩ := firstMax_decomp rest e
      refine ⟨(firstMax e rest).2, pre, suf, ?_, hpre, hsuf⟩
      rw [Prod.mk.eta]
      exact hdec

lemma isSensitive_iff (c : Checkin) : isSensitive c = true ↔ SensitiveSpec c := by
  unfold isSensitive SensitiveSpec
  simp only [Bool.or_eq_true, List.any_eq_true, List.mem_map]
  constructor
  · rintro (⟨cn, ⟨cat, hcat, rfl⟩, term, hterm, hc⟩ | ⟨term, hterm, hv⟩)
    · exact ⟨term, hterm, Or.inr ⟨cat, hcat, hc⟩⟩
    · exact ⟨term, hterm, Or.inl hv⟩
  · rintro ⟨term, hterm, hv | ⟨cat, hcat, hc⟩⟩
    · exact Or.inr ⟨term, hterm, hv⟩
    · exact Or.inl ⟨_, ⟨cat, hcat, rfl⟩, term, hterm, hc⟩

/-- C8: the privacy filter is exactly the filter by the spec-side sensitivity
predicate (case-insensitive substring match of a fixed term against the
venue name or a category name); it is a sublist of the input, so records are
kept unmodified and in their original order; and the rest of the pipeline
runs on the filtered list when the flag is set and on the whole list when it
is unset, so removed records reach no downstream tally. -/
theorem spec_c8 (l : List Checkin) :
    privacyFilter l = l.filter (fun c => decide ¬ SensitiveSpec c) ∧
    List.Sublist (privacyFilter l) l ∧
    (l ≠ [] →
      analyze_checkins l true = Except.map Option.some (analyzeBody (privacyFilter l)) ∧
      analyze_checkins l false = Except.map Option.some (analyzeBody l)) := by
  refine ⟨?_, ?_, ?_⟩
  · unfold privacyFilter
    apply List.filter_congr
    intro c _
    have hiff := isSensitive_iff c
    cases hb : isSensitive c
    · rw [hb] at hiff
      simp only [Bool.false_eq_true, false_iff] at hiff
      simp [hiff]
    · rw [hb] at hiff
      simp only [true_iff] at hiff
      simp [hiff]
  · exact List.filter_sublist l
  · intro hl
    have hne : l.isEmpty = false := by
      cases l with
      | nil => exact absurd rfl hl
      | cons c t => rfl
    constructor
    · unfold analyze_checkins
      rw [hne]
      simp
    · unfold analyze_checkins
      rw [hne]
      simp

theorem spec_c8_witness :
    analyze_checkins [churchCheckin] true
      = Except.map Option.some (analyzeBody (privacyFilter [churchCheckin])) ∧
    privacyFilter [churchCheckin] = [] :=
  ⟨((spec_c8 [churchCheckin]).2.2 (List.cons_ne_nil _ _)).1, by with_unfolding_all rfl⟩

lemma coordTruthy_zeroToNone (o : Option ℚ) : coordTruthy (zeroToNone o) = coordTruthy o := by
  cases o with
  | none => rfl
  | some x =>
    by_cases hx : x = 0
    · subst hx
      show coordTruthy none = coordTruthy (some 0)
      simp [zeroToNone, coordTruthy]
    · simp [zeroToNone, hx, coordTruthy]

lemma zeroToNone_of_truthy {o : Option ℚ} (h : coordTruthy o = true) : zeroToNone o = o := by
  cases o with
  | none => rfl
  | some x =>
    unfold coordTruthy at h
    simp only [bne_iff_ne, ne_eq] at h
    simp [zeroToNone, h]

lemma filter_lat_map_zero (hv : List VenueInfo) :
    (hv.map zeroCoordToNone).filter (fun v => coordTruthy v.lat)
      = (hv.filter fun v => coordTruthy v.lat).map zeroCoordToNone := by
  induction hv with
  | nil => rfl
  | cons v t ih =>
    simp only [List.map_cons, List.filter_cons]
    have hz : coordTruthy (zeroCoordToNone v).lat = coordTruthy v.lat :=
      coordTruthy_zeroToNone v.lat
    rw [hz]
    cases hc : coordTruthy v.lat <;> simp [ih]

lemma filter_lng_map_zero (hv : List VenueInfo) :
    (hv.map zeroCoordToNone).filter (fun v => coordTruthy v.lng)
      = (hv.filter fun v => coordTruthy v.lng).map zeroCoordToNone := by
  induction hv with
  | nil => rfl
  | cons v t ih =>
    simp only [List.map_cons, List.filter_cons]
    have hz : coordTruthy (zeroCoordToNone v).lng = coordTruthy v.lng :=
      coordTruthy_zeroToNone v.lng
    rw [hz]
    cases hc : coordTruthy v.lng <;> simp [ih]

lemma furthest_candidates_map_zero (vs : List VenueInfo) :
    furthest_candidates (vs.map zeroCoordToNone)
      = (furthest_candidates vs).map zeroCoordToNone := by
  unfold furthest_candidates
  induction vs with
  | nil => rfl
  | cons v t ih =>
    simp only [List.map_cons, List.filter_cons]
    have h1 : coordTruthy (zeroCoordToNone v).lat = coordTruthy v.lat :=
      coordTruthy_zeroToNone v.lat
    have h2 : coordTruthy (zeroCoordToNone v).lng = coordTruthy v.lng :=
      coordTruthy_zeroToNone v.lng
    rw [h1, h2]
    cases hc : coordTruthy v.lat && coordTruthy v.lng <;> simp [ih]

lemma home_means_map_zeroCoordToNone (hv : List VenueInfo) :
    home_means (hv.map zeroCoordToNone) = home_means hv := by
  unfold home_means
  rw [filter_lat_map_zero, filter_lng_map_zero]
  dsimp only
  rw [List.length_map, List.length_map, List.map_map, List.map_map]
  have h1 : ((hv.filter fun v => coordTruthy v.lat).map
        ((fun v => v.lat.getD 0) ∘ zeroCoordToNone))
      = (hv.filter fun v => coordTruthy v.lat).map fun v => v.lat.getD 0 := by
    apply List.map_congr_left
    intro v hvmem
    have ht := (List.mem_filter.mp hvmem).2
    show (zeroCoordToNone v).lat.getD 0 = v.lat.getD 0
    rw [show (zeroCoordToNone v).lat = zeroToNone v.lat from rfl, zeroToNone_of_truthy ht]
  have h2 : ((hv.filter fun v => coordTruthy v.lng).map
        ((fun v => v.lng.getD 0) ∘ zeroCoordToNone))
      = (hv.filter fun v => coordTruthy v.lng).map fun v => v.lng.getD 0 := by
    apply List.map_congr_left
    intro v hvmem
    have ht := (List.mem_filter.mp hvmem).2
    show (zeroCoordToNone v).lng.getD 0 = v.lng.getD 0
    rw [show (zeroCoordToNone v).lng = zeroToNone v.lng from rfl, zeroToNone_of_truthy ht]
  rw [h1, h2]

/-- C10 counterexample: a home-city venue with latitude exactly 0 and
longitude 40 still contributes its longitude to the home longitude mean, so
it is not treated as having no coordinates: replacing its coordinate fields
by absent ones changes the home means. -/
theorem spec_c10_counterexample :
    home_means [hv1, hv2] = Except.ok (10, 30) ∧
    home_means [hv1, hv2none] = Except.ok (10, 20) ∧
    (Except.ok ((10 : ℚ), (30 : ℚ)) : Except String (ℚ × ℚ)) ≠ Except.ok (10, 20) := by
  refine ⟨by with_unfolding_all rfl, by with_unfolding_all rfl, ?_⟩
  intro h
  injection h with h
  have h30 : (30 : ℚ) = 20 := congrArg Prod.snd h
  norm_num at h30

/-- C10 amended: a zero coordinate behaves exactly like an absent one, field
by field: a venue with a zero latitude or longitude is excluded from map
point clustering and from the furthest-venue scan (both require both
coordinates truthy), and replacing zero coordinate fields by absent ones
leaves the furthest-venue scan domain and the home-coordinate means
unchanged; a venue with only one zero coordinate still contributes its other
coordinate to that mean. -/
theorem spec_c10 :
    (∀ v : VenueInfo, v.lat = some 0 ∨ v.lng = some 0 →
      map_point_guard v = false ∧ ∀ vs : List VenueInfo, v ∉ furthest_candidates vs) ∧
    (∀ vs : List VenueInfo,
      furthest_candidates (vs.map zeroCoordToNone)
        = (furthest_candidates vs).map zeroCoordToNone) ∧
    ∀ hv : List VenueInfo, home_means (hv.map zeroCoordToNone) = home_means hv := by
  refine ⟨?_, furthest_candidates_map_zero, home_means_map_zeroCoordToNone⟩
  intro v hv0
  have hguard : map_point_guard v = false := by
    unfold map_point_guard
    rcases hv0 with h | h
    · rw [h]; simp [coordTruthy]
    · rw [h]; simp [coordTruthy]
  refine ⟨hguard, ?_⟩
  intro vs hmem
  have hm := (List.mem_filter.mp hmem).2
  rw [show (coordTruthy v.lat && coordTruthy v.lng) = map_point_guard v from rfl] at hm
  rw [hguard] at hm
  cases hm

theorem spec_c10_witness :
    map_point_guard hv2 = false ∧ hv2 ∉ furthest_candidates [hv1, hv2] := by
  have h := spec_c10.1 hv2 (Or.inl rfl)
  exact ⟨h.1, h.2 [hv1, hv2]⟩

theorem spec_c7_witness :
    determine_personality pstats0 [] [] = adventurerDefault ∧
    ∃ id t, List.lookup id PERSONALITY_TYPES = some t ∧
      determine_personality psAllZero ccAllZero cycAllZero
        = ⟨some id, t.name, t.emoji, t.description⟩ ∧
      IsFirstMax (personalityScores psAllZero ccAllZero cycAllZero) id :=
  ⟨(spec_c7 pstats0 [] []).1 rfl,
   (spec_c7 psAllZero ccAllZero cycAllZero).2.1 (by decide)⟩

/-- The first-seen registration a batch induces for a venue id: the stored
info derived from the first record carrying that id, when derivation
succeeds. -/
def idLookup (l : List Checkin) (id : String) : Option VenueInfo :=
  (l.find? fun c => venueIdOf c == id).bind fun c =>
    (deriveVenueInfo (venueOf c) (venueNameOf c)).toOption

lemma orElse_some {α : Type} (w : α) (f : Unit → Option α) :
    Option.orElse (some w) f = some w := rfl

lemma orElse_none {α : Type} (f : Unit → Option α) : Option.orElse none f = f () := rfl

lemma lookup_append_single_self {l : List (String × VenueInfo)} {k : String} {v : VenueInfo}
    (h : List.lookup k l = none) : List.lookup k (l ++ [(k, v)]) = some v := by
  induction l with
  | nil => simp [List.lookup]
  | cons e t ih =>
    obtain ⟨a, b⟩ := e
    simp only [List.lookup] at h
    simp only [List.cons_append, List.lookup]
    cases hk : (k == a)
    · rw [hk] at h
      exact ih h
    · rw [hk] at h
      cases h

lemma lookup_append_single_other {l : List (String × VenueInfo)} {k k' : String}
    {v : VenueInfo} (h : k' ≠ k) :
    List.lookup k' (l ++ [(k, v)]) = List.lookup k' l := by
  induction l with
  | nil =>
    simp only [List.nil_append, List.lookup]
    rw [show (k' == k) = false by simp [h]]
  | cons e t ih =>
    obtain ⟨a, b⟩ := e
    simp only [List.cons_append, List.lookup]
    cases hk : (k' == a)
    · exact ih
    · rfl

lemma lookup_none_not_mem_fst {l : List (String × VenueInfo)} {k : String}
    (h : List.lookup k l = none) : k ∉ l.map Prod.fst := by
  induction l with
  | nil => simp
  | cons e t ih =>
    obtain ⟨a, b⟩ := e
    simp only [List.lookup] at h
    cases hk : (k == a)
    · rw [hk] at h
      simp only [List.map_cons, List.mem_cons]
      rintro (rfl | hm)
      · simp at hk
      · exact ih h hm
    · rw [hk] at h
      cases h

lemma registerVenue_found {venues : List (String × VenueInfo)} {venue : Venue}
    {vid vname : String} {venues' : List (String × VenueInfo)} {w : VenueInfo}
    (h : registerVenue venues venue vid vname = Except.ok venues')
    (hv : List.lookup vid venues = some w) : venues' = venues := by
  unfold registerVenue at h
  rw [hv] at h
  injection h with h
  exact h.symm

lemma registerVenue_new {venues : List (String × VenueInfo)} {venue : Venue}
    {vid vname : String} {venues' : List (String × VenueInfo)}
    (h : registerVenue venues venue vid vname = Except.ok venues')
    (hv : List.lookup vid venues = none) :
    ∃ info, deriveVenueInfo venue vname = Except.ok info ∧
      venues' = venues ++ [(vid, info)] := by
  unfold registerVenue at h
  rw [hv] at h
  cases hd : deriveVenueInfo venue vname with
  | error e => rw [hd] at h; cases h
  | ok info =>
    rw [hd] at h
    injection h with h
    exact ⟨info, rfl, h.symm⟩

lemma aggStep_venues {st : AggState} {c : Checkin} {st1 : AggState}
    (h : aggStep st c = Except.ok st1) :
    registerVenue st.venues (venueOf c) (venueIdOf c) (venueNameOf c)
      = Except.ok st1.venues := by
  simp only [aggStep] at h
  cases hr : registerVenue st.venues (venueOf c) (venueIdOf c) (venueNameOf c) with
  | error e => rw [hr] at h; cases h
  | ok venues =>
    rw [hr] at h
    dsimp only at h
    injection h with h
    rw [← h]

/-- First-seen-wins venue registration across the whole aggregation fold:
the registry keys stay distinct, and each id maps to the info derived from
the first record of the batch carrying it (past any registry the fold
started from). -/
lemma aggFold_venues :
    ∀ (l : List Checkin) (st st' : AggState), aggFold st l = Except.ok st' →
      ((st.venues.map Prod.fst).Nodup → (st'.venues.map Prod.fst).Nodup) ∧
      ∀ id, List.lookup id st'.venues
          = ((List.lookup id st.venues).orElse fun _ => idLookup l id) := by
  intro l
  induction l with
  | nil =>
    intro st st' h
    simp only [aggFold] at h
    injection h with h
    subst h
    refine ⟨fun hn => hn, fun id => ?_⟩
    cases hx : List.lookup id st.venues <;> rfl
  | cons c t ih =>
    intro st st' h
    simp only [aggFold] at h
    cases hs : aggStep st c with
    | error e => rw [hs] at h; cases h
    | ok st1 =>
      rw [hs] at h
      obtain ⟨ihnodup, ihlookup⟩ := ih st1 st' h
      have hreg := aggStep_venues hs
      constructor
      · intro hn
        apply ihnodup
        cases hv : List.lookup (venueIdOf c) st.venues with
        | some w => rw [registerVenue_found hreg hv]; exact hn
        | none =>
          obtain ⟨info, _, hv'⟩ := registerVenue_new hreg hv
          rw [hv']
          have hnot := lookup_none_not_mem_fst hv
          simp only [List.map_append, List.map_cons, List.map_nil]
          simp only [List.nodup_append, List.nodup_cons, List.not_mem_nil, not_false_iff,
            List.nodup_nil, and_true, true_and]
          exact ⟨hn, by intro a ha hmem; simp at hmem; subst hmem; exact hnot ha⟩
      · intro id
        rw [ihlookup id]
        cases hc : (venueIdOf c == id) with
        | true =>
          have hid : venueIdOf c = id := eq_of_beq hc
          subst hid
          cases hv : List.lookup (venueIdOf c) st.venues with
          | some w =>
            rw [registerVenue_found hreg hv, hv, orElse_some, orElse_some]
          | none =>
            obtain ⟨info, hderive, hv'⟩ := registerVenue_new hreg hv
            have hst1 : List.lookup (venueIdOf c) st1.venues = some info := by
              rw [hv']
              exact lookup_append_single_self hv
            rw [hst1, orElse_some, orElse_none]
            show some info = idLookup (c :: t) (venueIdOf c)
            unfold idLookup
            rw [List.find?_cons_of_pos _ (by simp)]
            show some info = (deriveVenueInfo (venueOf c) (venueNameOf c)).toOption
            rw [hderive]
            rfl
        | false =>
          have hne : id ≠ venueIdOf c := by
            intro he
            rw [he, beq_self_eq_true] at hc
            cases hc
          have hst1 : List.lookup id st1.venues = List.lookup id st.venues := by
            cases hv : List.lookup (venueIdOf c) st.venues with
            | some w => rw [registerVenue_found hreg hv]
            | none =>
              obtain ⟨info, _, hv'⟩ := registerVenue_new hreg hv
              rw [hv']
              exact lookup_append_single_other hne
          have hskip : idLookup (c :: t) id = idLookup t id := by
            unfold idLookup
            rw [List.find?_cons_of_neg _ (by rw [hc]; exact Bool.false_ne_true)]
          rw [hst1, hskip]

/-- The frozen first-seen info a batch assigns to a record: the registry
entry of its venue id. -/
def frozenInfo (L : List Checkin) (c : Checkin) : VenueInfo :=
  (idLookup L (venueIdOf c)).getD defaultVenueInfo

/-- Spec-side recomputation of the category tally from the frozen first-seen
info of each record, following the spec wording that all counts referencing
an id use the frozen attributes. -/
def frozenCategoryTally (L : List Checkin) : List (String × Nat) :=
  L.foldl (fun t c => bump t (frozenInfo L c).category) []

/-- Spec-side recomputation of the city tally from the frozen first-seen
info. -/
def frozenCityTally (L : List Checkin) : List (String × Nat) :=
  L.foldl (fun t c => bump t (cityKeyOf (frozenInfo L c))) []

/-- Spec-side recomputation of the country tally from the frozen first-seen
info. -/
def frozenCountryTally (L : List Checkin) : List (String × Nat) :=
  L.foldl (fun t c => bump t (frozenInfo L c).country) []

/-- The per-venue visit tally recomputed from each record raw venue name
(what line 184 actually keys on). -/
def rawNameTally (L : List Checkin) : List (String × Nat) :=
  L.foldl (fun t c => bump t (venueNameOf c)) []

lemma idLookup_cons_self (c : Checkin) (rest : List Checkin) :
    idLookup (c :: rest) (venueIdOf c)
      = (deriveVenueInfo (venueOf c) (venueNameOf c)).toOption := by
  unfold idLookup
  rw [List.find?_cons_of_pos _ (by simp)]
  rfl

lemma idLookup_cons_ne {c : Checkin} {rest : List Checkin} {id : String}
    (h : id ≠ venueIdOf c) : idLookup (c :: rest) id = idLookup rest id := by
  unfold idLookup
  rw [List.find?_cons_of_neg _ (by intro hb; exact h (eq_of_beq hb).symm)]

/-- The tally updates one aggregation step performs, with the registry state
it reads them from. -/
lemma aggStep_tallies {st : AggState} {c : Checkin} {st1 : AggState}
    (h : aggStep st c = Except.ok st1) :
    ∃ venues1,
      registerVenue st.venues (venueOf c) (venueIdOf c) (venueNameOf c)
          = Except.ok venues1 ∧
      st1.venues = venues1 ∧
      st1.venue_counts = bump st.venue_counts (venueNameOf c) ∧
      st1.category_counts = bump st.category_counts
        ((List.lookup (venueIdOf c) venues1).getD defaultVenueInfo).category ∧
      st1.city_counts = bump st.city_counts
        (cityKeyOf ((List.lookup (venueIdOf c) venues1).getD defaultVenueInfo)) ∧
      st1.country_counts = bump st.country_counts
        ((List.lookup (venueIdOf c) venues1).getD defaultVenueInfo).country := by
  simp only [aggStep] at h
  cases hr : registerVenue st.venues (venueOf c) (venueIdOf c) (venueNameOf c) with
  | error e => rw [hr] at h; cases h
  | ok venues1 =>
    rw [hr] at h
    dsimp only at h
    injection h with h
    refine ⟨venues1, rfl, ?_, ?_, ?_, ?_, ?_⟩
    all_goals rw [← h]

/-- The per-venue visit tally across the whole fold is keyed by each record
raw venue name. -/
lemma aggFold_venue_counts :
    ∀ (l : List Checkin) (st st' : AggState), aggFold st l = Except.ok st' →
      st'.venue_counts = l.foldl (fun t c => bump t (venueNameOf c)) st.venue_counts := by
  intro l
  induction l with
  | nil =>
    intro st st' h
    simp only [aggFold] at h
    injection h with h
    subst h
    rfl
  | cons c t ih =>
    intro st st' h
    simp only [aggFold] at h
    cases hs : aggStep st c with
    | error e => rw [hs] at h; cases h
    | ok st1 =>
      rw [hs] at h
      obtain ⟨v1, _, _, hvc, _, _, _⟩ := aggStep_tallies hs
      rw [List.foldl_cons, ← hvc]
      exact ih st1 st' h

/-- The category, city and country tallies across the whole fold use the
frozen first-seen info of each record venue id. The two invariants say the
starting registry agrees with the whole-batch first-seen assignment and that
unregistered ids first occur in the remaining records. -/
lemma aggFold_frozen_tallies (L : List Checkin) :
    ∀ (rest : List Checkin) (st st' : AggState),
      aggFold st rest = Except.ok st' →
      (∀ id w, List.lookup id st.venues = some w → idLookup L id = some w) →
      (∀ id, List.lookup id st.venues = none → idLookup L id = idLookup rest id) →
      st'.category_counts
          = rest.foldl (fun t c => bump t (frozenInfo L c).category) st.category_counts ∧
      st'.city_counts
          = rest.foldl (fun t c => bump t (cityKeyOf (frozenInfo L c))) st.city_counts ∧
      st'.country_counts
          = rest.foldl (fun t c => bump t (frozenInfo L c).country) st.country_counts := by
  intro rest
  induction rest with
  | nil =>
    intro st st' h _ _
    simp only [aggFold] at h
    injection h with h
    subst h
    exact ⟨rfl, rfl, rfl⟩
  | cons c t ih =>
    intro st st' h hInv1 hInv2
    simp only [aggFold] at h
    cases hs : aggStep st c with
    | error e => rw [hs] at h; cases h
    | ok st1 =>
      rw [hs] at h
      obtain ⟨venues1, hr, hv1, hvc, hcat, hcity, hcountry⟩ := aggStep_tallies hs
      cases hv : List.lookup (venueIdOf c) st.venues with
      | some w =>
        have hveq : venues1 = st.venues := registerVenue_found hr hv
        have hL : idLookup L (venueIdOf c) = some w := hInv1 _ _ hv
        have hinfo : (List.lookup (venueIdOf c) venues1).getD defaultVenueInfo
            = frozenInfo L c := by
          rw [hveq, hv]
          unfold frozenInfo
          rw [hL]
        have hInv1n : ∀ id w0, List.lookup id st1.venues = some w0 → idLookup L id = some w0 := by
          intro id w0 hw0
          rw [hv1, hveq] at hw0
          exact hInv1 _ _ hw0
        have hInv2n : ∀ id, List.lookup id st1.venues = none → idLookup L id = idLookup t id := by
          intro id hn
          rw [hv1, hveq] at hn
          have hne : id ≠ venueIdOf c := by
            intro he
            rw [he, hv] at hn
            cases hn
          rw [hInv2 _ hn, idLookup_cons_ne hne]
        obtain ⟨ic, icy, ico⟩ := ih st1 st' h hInv1n hInv2n
        refine ⟨?_, ?_, ?_⟩
        · rw [ic, hcat, hinfo, List.foldl_cons]
        · rw [icy, hcity, hinfo, List.foldl_cons]
        · rw [ico, hcountry, hinfo, List.foldl_cons]
      | none =>
        obtain ⟨info, hderive, happ⟩ := registerVenue_new hr hv
        have hlk : List.lookup (venueIdOf c) venues1 = some info := by
          rw [happ]
          exact lookup_append_single_self hv
        have hL : idLookup L (venueIdOf c) = some info := by
          rw [hInv2 _ hv, idLookup_cons_self, hderive]
          rfl
        have hinfo : (List.lookup (venueIdOf c) venues1).getD defaultVenueInfo
            = frozenInfo L c := by
          rw [hlk]
          unfold frozenInfo
          rw [hL]
        have hInv1n : ∀ id w0, List.lookup id st1.venues = some w0 → idLookup L id = some w0 := by
          intro id w0 hw0
          rw [hv1, happ] at hw0
          by_cases hid : id = venueIdOf c
          · subst hid
            rw [lookup_append_single_self hv] at hw0
            injection hw0 with hw0
            rw [← hw0]
            exact hL
          · rw [lookup_append_single_other hid] at hw0
            exact hInv1 _ _ hw0
        have hInv2n : ∀ id, List.lookup id st1.venues = none → idLookup L id = idLookup t id := by
          intro id hn
          rw [hv1, happ] at hn
          by_cases hid : id = venueIdOf c
          · subst hid
            rw [lookup_append_single_self hv] at hn
            cases hn
          · rw [lookup_append_single_other hid] at hn
            rw [hInv2 _ hn, idLookup_cons_ne hid]
        obtain ⟨ic, icy, ico⟩ := ih st1 st' h hInv1n hInv2n
        refine ⟨?_, ?_, ?_⟩
        · rw [ic, hcat, hinfo, List.foldl_cons]
        · rw [icy, hcity, hinfo, List.foldl_cons]
        · rw [ico, hcountry, hinfo, List.foldl_cons]

/-- C3 counterexample: two records share venue id v1 under raw names A and B;
the registry freezes the first-seen name A, yet the per-venue visit tally is
keyed by each record raw name, holding A and B once each instead of A
twice. -/
theorem spec_c3_counterexample :
    (aggregate B3).toOption.map AggState.venues
        = some [("v1", ⟨"A", "Other", "C", "", "X", some 1, some 2⟩)] ∧
    (aggregate B3).toOption.map AggState.venue_counts = some [("A", 1), ("B", 1)] ∧
    ([("A", 1), ("B", 1)] : List (String × Nat)) ≠ [("A", 2)] := by
  refine ⟨by with_unfolding_all rfl, by with_unfolding_all rfl, by decide⟩

/-- C3 amended: a venue id is registered at most once, frozen to the
attributes derived from its first record, and the category, city and country
tallies equal their recomputation from each record frozen first-seen info;
but the per-venue visit tally equals its recomputation from each record raw
venue name, and the international count reads each record raw location
country, so those two counts do not use the frozen attributes (the B3i
batch freezes country United States yet counts one international
check-in). -/
theorem spec_c3 :
    (∀ (l : List Checkin) (agg : AggState), aggregate l = Except.ok agg →
      (agg.venues.map Prod.fst).Nodup ∧
      (∀ id, List.lookup id agg.venues = idLookup l id) ∧
      agg.venue_counts = rawNameTally l ∧
      agg.category_counts = frozenCategoryTally l ∧
      agg.city_counts = frozenCityTally l ∧
      agg.country_counts = frozenCountryTally l) ∧
    (aggregate B3i).toOption.map AggState.venues
        = some [("vus", ⟨"P", "Other", "C", "", "United States", some 1, some 2⟩)] ∧
    (statsOf (analyze_checkins B3i false)).map Stats.international_checkins = some 1 := by
  refine ⟨?_, by with_unfolding_all rfl, by with_unfolding_all rfl⟩
  intro l agg h
  obtain ⟨hnodup, hlookup⟩ := aggFold_venues l initAgg agg h
  have hvct := aggFold_venue_counts l initAgg agg h
  have hfro := aggFold_frozen_tallies l l initAgg agg h
    (by intro id w hw; simp [initAgg] at hw)
    (by intro id hn; rfl)
  refine ⟨hnodup (by simp [initAgg]), fun id => ?_, ?_, hfro.1, hfro.2.1, hfro.2.2⟩
  · rw [hlookup id]
    simp [initAgg, Option.orElse, List.lookup]
  · rw [hvct]
    rfl

def aggB3 : AggState := (aggregate B3).toOption.getD initAgg

theorem spec_c3_witness :
    (aggB3.venues.map Prod.fst).Nodup ∧
    (∀ id, List.lookup id aggB3.venues = idLookup B3 id) ∧
    aggB3.venue_counts = rawNameTally B3 ∧
    aggB3.category_counts = frozenCategoryTally B3 ∧
    aggB3.city_counts = frozenCityTally B3 ∧
    aggB3.country_counts = frozenCountryTally B3 :=
  spec_c3.1 B3 aggB3 (by with_unfolding_all rfl)

lemma weekSharePct_bounds {part total : Nat} (h : part ≤ total) :
    0 ≤ weekSharePct part total ∧ weekSharePct part total ≤ 100 := by
  unfold weekSharePct
  split_ifs with hpos
  · exact pct_bounds (by positivity) (by exact_mod_cast h) (by exact_mod_cast hpos)
  · norm_num

lemma activity_bounds {dates : List Int} (hnodup : dates.Nodup) :
    0 ≤ activity_percentage_of dates.length (sortInts dates) ∧
    activity_percentage_of dates.length (sortInts dates) ≤ 100 := by
  unfold activity_percentage_of
  cases hsd : sortInts dates with
  | nil => norm_num
  | cons d rest =>
    dsimp only
    have hsorted : (d :: rest).Sorted (· < ·) := by
      rw [← hsd]; exact sortInts_sorted_lt hnodup
    have hlen : dates.length = (d :: rest).length := by rw [← hsd, sortInts_length]
    have hchain := strict_chain_length_le rest d hsorted
    split_ifs with hpos
    · rw [hlen]
      refine pct_bounds (by positivity) ?_ (by exact_mod_cast hpos)
      have h2 : ((d :: rest).length : Int) ≤ total_days_of (d :: rest) := by
        show ((d :: rest).length : Int) ≤ (d :: rest).getLastD d - d + 1
        exact hchain
      exact_mod_cast h2
    · norm_num

/-- C4 counterexample: on the B4 batch the engine returns normally (every
top-ten raw name matches a frozen registry name, so the top_venues
construction does not raise) with one_time_percentage 120, outside the
claimed interval: the numerator counts the twelve distinct raw venue names
seen once, the denominator the ten distinct registered ids. -/
theorem spec_c4_counterexample :
    (statsOf (analyze_checkins B4 false)).map Stats.one_time_percentage = some 120 ∧
    ¬ ((120 : ℚ) ≤ 100) := by
  refine ⟨by with_unfolding_all rfl, by norm_num⟩

/-- C4 amended: total_checkins equals the number of records remaining after
filtering, and the activity, friend, solo, shout, weekend, weekday and
international percentages all lie in the interval from 0 to 100;
one_time_percentage is only nonnegative, since duplicate venue ids under
distinct raw names can push it above 100. -/
theorem spec_c4 (l : List Checkin) (flag : Bool) (s : Stats)
    (h : analyze_checkins l flag = Except.ok (some s)) :
    s.total_checkins = (if flag then privacyFilter l else l).length ∧
    (0 ≤ s.activity_percentage ∧ s.activity_percentage ≤ 100) ∧
    (0 ≤ s.friend_percentage ∧ s.friend_percentage ≤ 100) ∧
    (0 ≤ s.solo_percentage ∧ s.solo_percentage ≤ 100) ∧
    (0 ≤ s.shout_percentage ∧ s.shout_percentage ≤ 100) ∧
    (0 ≤ s.weekend_percentage ∧ s.weekend_percentage ≤ 100) ∧
    (0 ≤ s.weekday_percentage ∧ s.weekday_percentage ≤ 100) ∧
    (0 ≤ s.international_percentage ∧ s.international_percentage ≤ 100) ∧
    0 ≤ s.one_time_percentage := by
  obtain ⟨agg, hagg, hs⟩ := analyze_ok_some h
  have hinv := aggFold_bounds (if flag then privacyFilter l else l) initAgg agg hagg
  have hcwf : agg.checkins_with_friends ≤ (if flag then privacyFilter l else l).length := by
    simpa [initAgg] using hinv.1
  have hshout : agg.checkins_with_shouts ≤ (if flag then privacyFilter l else l).length := by
    simpa [initAgg] using hinv.2.1
  have hnodup : agg.checkin_dates.Nodup := hinv.2.2 (by simp [initAgg])
  refine ⟨?_, ?_, ?_, ?_, ?_, ?_, ?_, ?_, ?_⟩
  · rw [hs]; rfl
  · have hap : s.activity_percentage
        = activity_percentage_of agg.checkin_dates.length (sortInts agg.checkin_dates) := by
      rw [hs]; rfl
    rw [hap]
    exact activity_bounds hnodup
  · have hfp : s.friend_percentage
        = sharePct (agg.checkins_with_friends : ℚ) (if flag then privacyFilter l else l).length := by
      rw [hs]; rfl
    rw [hfp]
    exact sharePct_bounds (by positivity) (by exact_mod_cast hcwf)
  · have hsp : s.solo_percentage
        = sharePct ((((if flag then privacyFilter l else l).length : Int)
            - (agg.checkins_with_friends : Int) : Int) : ℚ)
            (if flag then privacyFilter l else l).length := by
      rw [hs]; rfl
    rw [hsp]
    refine sharePct_bounds ?_ ?_
    · push_cast
      have : (agg.checkins_with_friends : ℚ) ≤ ((if flag then privacyFilter l else l).length : ℚ) := by
        exact_mod_cast hcwf
      linarith
    · push_cast
      have : (0 : ℚ) ≤ (agg.checkins_with_friends : ℚ) := by positivity
      linarith
  · have hshp : s.shout_percentage
        = sharePct (agg.checkins_with_shouts : ℚ) (if flag then privacyFilter l else l).length := by
      rw [hs]; rfl
    rw [hshp]
    exact sharePct_bounds (by positivity) (by exact_mod_cast hshout)
  · have hw : s.weekend_percentage
        = weekSharePct (tget agg.daily "Saturday" + tget agg.daily "Sunday")
            ((tget agg.daily "Saturday" + tget agg.daily "Sunday")
              + ((["Monday", "Tuesday", "Wednesday", "Thursday", "Friday"].map
                  (tget agg.daily))).sum) := by
      rw [hs]; rfl
    rw [hw]
    exact weekSharePct_bounds (Nat.le_add_right _ _)
  · have hw : s.weekday_percentage
        = weekSharePct ((["Monday", "Tuesday", "Wednesday", "Thursday", "Friday"].map
              (tget agg.daily))).sum
            ((tget agg.daily "Saturday" + tget agg.daily "Sunday")
              + ((["Monday", "Tuesday", "Wednesday", "Thursday", "Friday"].map
                  (tget agg.daily))).sum) := by
      rw [hs]; rfl
    rw [hw]
    exact weekSharePct_bounds (Nat.le_add_left _ _)
  · have hip : s.international_percentage
        = sharePct ((((if flag then privacyFilter l else l).length : Int)
            - (us_count (if flag then privacyFilter l else l) : Int) : Int) : ℚ)
            (if flag then privacyFilter l else l).length := by
      rw [hs]; rfl
    rw [hip]
    have hus : us_count (if flag then privacyFilter l else l)
        ≤ (if flag then privacyFilter l else l).length := List.countP_le_length _
    refine sharePct_bounds ?_ ?_
    · push_cast
      have : (us_count (if flag then privacyFilter l else l) : ℚ)
          ≤ ((if flag then privacyFilter l else l).length : ℚ) := by exact_mod_cast hus
      linarith
    · push_cast
      have : (0 : ℚ) ≤ (us_count (if flag then privacyFilter l else l) : ℚ) := by positivity
      linarith
  · have ho : s.one_time_percentage
        = (if !agg.venues.isEmpty then
            pyRound1 (((agg.venue_counts.filter fun e => e.2 == 1).length : ℚ)
              / (agg.venues.length : ℚ) * 100)
          else 0) := by
      rw [hs]; rfl
    rw [ho]
    split_ifs with hv
    · exact pyRound1_nonneg (by positivity)
    · norm_num

def c4stats : Stats := (statsOf (analyze_checkins B5 false)).getD dummyStats

theorem spec_c4_witness :
    c4stats.total_checkins = (if false then privacyFilter B5 else B5).length ∧
    (0 ≤ c4stats.activity_percentage ∧ c4stats.activity_percentage ≤ 100) ∧
    (0 ≤ c4stats.friend_percentage ∧ c4stats.friend_percentage ≤ 100) ∧
    (0 ≤ c4stats.solo_percentage ∧ c4stats.solo_percentage ≤ 100) ∧
    (0 ≤ c4stats.shout_percentage ∧ c4stats.shout_percentage ≤ 100) ∧
    (0 ≤ c4stats.weekend_percentage ∧ c4stats.weekend_percentage ≤ 100) ∧
    (0 ≤ c4stats.weekday_percentage ∧ c4stats.weekday_percentage ≤ 100) ∧
    (0 ≤ c4stats.international_percentage ∧ c4stats.international_percentage ≤ 100) ∧
    0 ≤ c4stats.one_time_percentage :=
  spec_c4 B5 false c4stats (by with_unfolding_all rfl)

end SwarmWrapped
